import Mathlib

/-!
# eth-insight: dispatcher and block-rate estimator

A shallow embedding of `insight.go` (the JSON-RPC dispatcher) and
`time_estimator.go` (the background block-rate estimator), followed by the
properties established about them.

Conventions of the embedding

* Go `float64` is the type `F64`: a finite value is carried as the rational
  it denotes, every arithmetic operation rounds its exact result to the
  nearest binary64 value (ties to even, gradual underflow, overflow to an
  infinity).  The two zeros are identified: the program only ever produces
  `+0`.
* Go `uint64` values are naturals, subtraction is taken modulo `2^64`.
* `time.Time` is a clock reading in nanoseconds, `time.Duration` an `int64`
  count of nanoseconds.
* The loops of `estimateTask` never return; one pass of a loop is a step
  function over the values the pass reads from outside (the upstream answer
  and the clock), and a run is a fold over a list of such readings.
* `encoding/json` and the reverse proxy are collaborators of the program and
  enter as parameters (`Env`).
-/

namespace Insight

/-! ## binary64 arithmetic -/

/-- A Go `float64`. -/
inductive F64 where
  | finite (q : ℚ)
  | inf (negative : Bool)
  | nan
  deriving DecidableEq

namespace F64

/-- The binary64 exponent of a magnitude `a`: the greatest `e` from `-1022`
to `1025` with `2^e ≤ a`, and `-1022` when there is none (the subnormal
range).  It is found by bisection over the exponent range. -/
def binade (a : ℚ) : ℤ :=
  [1024, 512, 256, 128, 64, 32, 16, 8, 4, 2, 1].foldl
    (fun lo step => if (2 : ℚ) ^ (lo + step) ≤ a then lo + step else lo) (-1022)

/-- The spacing of binary64 values around a magnitude `a`: 53 significant
bits, and never finer than the subnormal spacing `2^-1074`. -/
def ulp (a : ℚ) : ℚ :=
  (2 : ℚ) ^ (binade a - 52)

/-- The multiple of `ulp a` nearest to the magnitude `a`, ties to the even
multiple. -/
def roundMag (a : ℚ) : ℚ :=
  let m := a / ulp a
  let f : Int := ⌊m⌋
  let r := m - f
  let n : Int :=
    if r < 1 / 2 then f
    else if 1 / 2 < r then f + 1
    else if f % 2 = 0 then f else f + 1
  n * ulp a

/-- Round an exact result to binary64. -/
def round (q : ℚ) : F64 :=
  let v := roundMag |q|
  if (2 : ℚ) ^ (1024 : ℕ) ≤ v then inf (decide (q < 0))
  else finite (if q < 0 then -v else v)

/-- Conversion `float64(n)` of an unsigned integer. -/
def ofUInt64 (n : ℕ) : F64 := round n

/-- Conversion `float64(i)` of a signed integer. -/
def ofInt64 (i : ℤ) : F64 := round i

/-- Go `x + y` on `float64`. -/
def add : F64 → F64 → F64
  | nan, _ => nan
  | _, nan => nan
  | inf s, inf t => if s = t then inf s else nan
  | inf s, finite _ => inf s
  | finite _, inf t => inf t
  | finite x, finite y => round (x + y)

/-- Go `x / y` on `float64`. -/
def div : F64 → F64 → F64
  | nan, _ => nan
  | _, nan => nan
  | inf _, inf _ => nan
  | inf s, finite y => inf (xor s (decide (y < 0)))
  | finite _, inf _ => finite 0
  | finite x, finite y =>
    if y = 0 then (if x = 0 then nan else inf (decide (x < 0)))
    else round (x / y)

/-- A value is a finite number that is not negative. -/
def FiniteNonneg : F64 → Prop
  | finite q => 0 ≤ q
  | _ => False

instance : DecidablePred FiniteNonneg := fun x =>
  match x with
  | finite q => inferInstanceAs (Decidable (0 ≤ q))
  | inf _ => isFalse (fun h => h)
  | nan => isFalse (fun h => h)

end F64

/-! ## `time` -/

/-- A reading of `time.Now()`, in nanoseconds. -/
abbrev Time := ℤ

/-- A `time.Duration`: nanoseconds in an `int64`. -/
abbrev Duration := ℤ

def minDuration : Duration := -(2 ^ 63)

def maxDuration : Duration := 2 ^ 63 - 1

/-- The constant `time.Second`. -/
def Second : Duration := 1000000000

/-- The method `t.Sub(u)`: the difference `t - u`, and the least or greatest
`Duration` when the difference does not fit. -/
def Time.Sub (t u : Time) : Duration :=
  if t - u < minDuration then minDuration
  else if maxDuration < t - u then maxDuration
  else t - u

/-- The method `d.Seconds()`:
`float64(d / Second) + float64(d % Second) / 1e9`. -/
def Duration.Seconds (d : Duration) : F64 :=
  F64.add (F64.ofInt64 (d.tdiv Second)) (F64.div (F64.ofInt64 (d.tmod Second)) (F64.round 1000000000))

/-! ## `time_estimator.go` -/

/-- The struct `BlockTimeEstimator`: the published snapshot (the RPC client
`c` is the upstream, whose answers arrive as `Sample`s). -/
structure BlockTimeEstimator where
  blkPerSecond : F64
  deriving DecidableEq

/-- The method `getBPS`. -/
def BlockTimeEstimator.getBPS (est : BlockTimeEstimator) : F64 :=
  est.blkPerSecond

/-- Go `a - b` on `uint64`. -/
def subUInt64 (a b : ℕ) : ℕ := (a + 2 ^ 64 - b) % 2 ^ 64

/-- What one pass of a loop of `estimateTask` reads from outside: the answer
of `est.c.BlockNumber()` (`none` when `err != nil`), the reading of the first
`time.Now()` of the pass, and the reading of the second one (only a pass that
publishes a rate reads the clock twice). -/
structure Sample where
  blkID : Option ℕ
  now : Time
  later : Time
  deriving DecidableEq

/-- The goroutine `estimateTask` between two passes: the estimator it writes
to, whether the first loop has been left, and its two local variables. -/
structure Task where
  est : BlockTimeEstimator
  running : Bool
  lastMesaure : Time
  lastblkID : ℕ
  deriving DecidableEq

/-- The function `newBlockTimeEstimator`: stores `float64(0.1)` and starts
`estimateTask`, whose locals hold their zero values. -/
def newBlockTimeEstimator : Task :=
  { est := { blkPerSecond := F64.round (1 / 10) }
    running := false
    lastMesaure := 0
    lastblkID := 0 }

/-- One pass of the first loop of `estimateTask` (bootstrap). -/
def bootstrapPass (t : Task) (s : Sample) : Task :=
  match s.blkID with
  | some blkID => { t with lastblkID := blkID, lastMesaure := s.now, running := true }
  | none => t

/-- One pass of the second loop of `estimateTask` (a tick). -/
def tickPass (t : Task) (s : Sample) : Task :=
  match s.blkID with
  | some blkID =>
    if blkID > t.lastblkID then
      let bps := F64.div (F64.ofUInt64 (subUInt64 blkID t.lastblkID))
        (Duration.Seconds (Time.Sub s.now t.lastMesaure))
      { est := { blkPerSecond := bps }
        running := true
        lastblkID := blkID
        lastMesaure := s.later }
    else t
  | none => t

/-- One pass of whichever loop `estimateTask` is in. -/
def estimatePass (t : Task) (s : Sample) : Task :=
  if t.running then tickPass t s else bootstrapPass t s

/-- The function `estimateTask`, run over the readings of its passes. -/
def estimateTask (t : Task) (samples : List Sample) : Task :=
  samples.foldl estimatePass t

/-! ## `insight.go` -/

/-- A Go `interface{}` value: what `encoding/json` decodes into one (with
`UseNumber`, a number is kept as its literal), and a `float64`, which the
handler `blockPerSecond` returns. -/
inductive Value where
  | nil
  | bool (b : Bool)
  | number (literal : String)
  | float64 (x : F64)
  | string (s : String)
  | slice (elems : List Value)
  | map (entries : List (String × Value))

/-- The struct `jsonrpc.RPCRequest`. -/
structure RPCRequest where
  JSONRPC : String
  ID : ℕ
  Method : String
  Params : Value

/-- The struct `jsonrpc.RPCError`. -/
structure RPCError where
  Code : ℤ
  Message : String
  Data : Value

/-- The struct `jsonrpc.RPCResponse`; `Error` is a pointer, `none` is `nil`. -/
structure RPCResponse where
  JSONRPC : String
  ID : ℕ
  Result : Value
  Error : Option RPCError

/-- The struct `JSONRPCError` a handler fails with: the two fields
`dispatchRequest` reads. -/
structure JSONRPCError where
  ID : ℤ
  Message : String

/-- The type `handler`.  A handler registered by `Run` is a method value of
the server and reads the estimator when it is called; the estimator of that
moment is its first argument here.  The second component of the result is
the `*JSONRPCError`, `none` for `nil`. -/
abbrev handler := BlockTimeEstimator → List Value → Value × Option JSONRPCError

/-- The struct `Server`: the registry `dispatch` and the estimator. -/
structure Server where
  dispatch : String → Option handler
  timeEstimator : BlockTimeEstimator

/-- The function `NewServer`: an empty registry and a fresh estimator. -/
def NewServer : Server :=
  { dispatch := fun _ => none
    timeEstimator := newBlockTimeEstimator.est }

/-- The method `blockPerSecond`. -/
def blockPerSecond : handler :=
  fun est _ => (Value.float64 est.getBPS, none)

/-- The registration made by `Run`:
`server.dispatch["blockPerSecond"] = server.blockPerSecond`. -/
def Server.Run (server : Server) : Server :=
  { server with
    dispatch := fun name => if name = "blockPerSecond" then some blockPerSecond
      else server.dispatch name }

/-- What the program is linked against: the decoder and encoder of
`encoding/json` on the two envelope types, and the two error codes, package
constants declared outside the files at hand. -/
structure Env where
  jsonDecode : String → Except String RPCRequest
  marshalRequest : RPCRequest → Except String String
  marshalResponse : RPCResponse → Except String String
  JSONRPCParserError : ℤ
  JSONRPCInnerError : ℤ

/-- A call on the `http.ResponseWriter`. -/
inductive WriterCall where
  | WriteHeader (status : ℕ)
  | Write (data : String)
  deriving DecidableEq

/-- The function `http.Error`: the status line, then the message and a line
feed. -/
def httpError (message : String) (code : ℕ) : List WriterCall :=
  [WriterCall.WriteHeader code, WriterCall.Write (message ++ "\n")]

/-- The method `decodeRPCRequest`. -/
def decodeRPCRequest (env : Env) (body : String) : Except String RPCRequest :=
  match env.jsonDecode body with
  | .error err => .error err
  | .ok request => .ok request

/-- The envelope `makeJSONRPCError` builds. -/
def errorEnvelope (id : ℕ) (code : ℤ) (message : String) (data : Value) : RPCResponse :=
  { JSONRPC := "2.0"
    ID := id
    Result := Value.nil
    Error := some { Code := code, Message := message, Data := data } }

/-- The method `makeJSONRPCError`, as the calls it makes on `w`. -/
def makeJSONRPCError (env : Env) (id : ℕ) (code : ℤ) (message : String) (data : Value) :
    List WriterCall :=
  let response := errorEnvelope id code message data
  match env.marshalResponse response with
  | .error _ =>
    WriterCall.WriteHeader 500 :: httpError "server internal error" 500
  | .ok jsonresponse =>
    [WriterCall.WriteHeader 200, WriterCall.Write jsonresponse]

/-- The envelope `makeJSONRPCResponse` builds. -/
def resultEnvelope (id : ℕ) (data : Value) : RPCResponse :=
  { JSONRPC := "2.0"
    ID := id
    Result := data
    Error := none }

/-- The method `makeJSONRPCResponse`, as the calls it makes on `w`. -/
def makeJSONRPCResponse (env : Env) (id : ℕ) (data : Value) : List WriterCall :=
  let response := resultEnvelope id data
  match env.marshalResponse response with
  | .error _ =>
    WriterCall.WriteHeader 500 :: httpError "server internal error" 500
  | .ok jsonresponse =>
    [WriterCall.WriteHeader 200, WriterCall.Write jsonresponse]

/-- What one call of `dispatchRequest` does: its calls on `w`, the local
handlers it invokes with their arguments, the body it leaves in `r` when it
hands `w` and `r` to the reverse proxy, and whether it ends in a run-time
panic. -/
structure Exchange where
  writer : List WriterCall
  invoked : List (String × List Value)
  proxied : Option String
  panicked : Bool

/-- The method `dispatchRequest` on a request with the given body. -/
def dispatchRequest (env : Env) (server : Server) (body : String) : Exchange :=
  match decodeRPCRequest env body with
  | .error _ =>
    { writer := makeJSONRPCError env 0 env.JSONRPCParserError "parse error" Value.nil
      invoked := [], proxied := none, panicked := false }
  | .ok request =>
    match server.dispatch request.Method with
    | some method =>
      let params : Value :=
        match request.Params with
        | Value.nil => Value.slice []
        | p => p
      match params with
      | Value.slice args =>
        match method server.timeEstimator args with
        | (result, some err) =>
          { writer := makeJSONRPCError env request.ID err.ID err.Message result
            invoked := [(request.Method, args)], proxied := none, panicked := false }
        | (result, none) =>
          { writer := makeJSONRPCResponse env request.ID result
            invoked := [(request.Method, args)], proxied := none, panicked := false }
      | _ =>
        { writer := [], invoked := [], proxied := none, panicked := true }
    | none =>
      match env.marshalRequest request with
      | .error err =>
        { writer := makeJSONRPCError env request.ID env.JSONRPCInnerError err Value.nil
          invoked := [], proxied := none, panicked := false }
      | .ok data =>
        { writer := [], invoked := [], proxied := some data, panicked := false }

/-- The field `result` of an envelope is populated. -/
def RPCResponse.hasResult (r : RPCResponse) : Bool :=
  match r.Result with
  | Value.nil => false
  | _ => true

/-- The field `error` of an envelope is populated. -/
def RPCResponse.hasError (r : RPCResponse) : Bool :=
  r.Error.isSome

/-! ## An instance of `Env`

A rendering of the envelopes as `encoding/json` writes them, for running the
dispatcher on concrete requests: fields in declaration order, `params`,
`result`, `error` and `data` left out when nil, a `float64` refused unless it
is finite.  A finite `float64` is written with the fewest digits that read
back as the same value. -/

instance : DecidableEq (Except String String) := fun a b =>
  match a, b with
  | .ok x, .ok y => if h : x = y then isTrue (by rw [h]) else isFalse (fun e => h (by cases e; rfl))
  | .error x, .error y =>
    if h : x = y then isTrue (by rw [h]) else isFalse (fun e => h (by cases e; rfl))
  | .ok _, .error _ => isFalse (fun e => by cases e)
  | .error _, .ok _ => isFalse (fun e => by cases e)

/-- The decimal exponent of a magnitude `a`: the greatest `e` from `-400` to
`623` with `10^e ≤ a`, found by bisection. -/
def decade (a : ℚ) : ℤ :=
  [512, 256, 128, 64, 32, 16, 8, 4, 2, 1].foldl
    (fun lo step => if (10 : ℚ) ^ (lo + step) ≤ a then lo + step else lo) (-400)

/-- The decimal digits of a natural number, at most `fuel + 1` of them. -/
def natDigits : ℕ → ℕ → String
  | 0, n => toString (n % 10)
  | fuel + 1, n => if n < 10 then toString n else natDigits fuel (n / 10) ++ toString (n % 10)

/-- The decimal `digits * 10^exp` with `n` significant digits that reads back
as the binary64 magnitude `a`, when there is one: of the two such decimals
next to `a`, the nearer one that reads back. -/
def roundTrip (a : ℚ) (n : ℕ) : Option (ℕ × ℤ) :=
  let k : ℤ := decade a - n + 1
  let scaled := a / (10 : ℚ) ^ k
  let lo : ℕ := (⌊scaled⌋).toNat
  let okLo := decide (F64.round ((lo : ℚ) * (10 : ℚ) ^ k) = F64.finite a)
  let okHi := decide (F64.round (((lo + 1 : ℕ) : ℚ) * (10 : ℚ) ^ k) = F64.finite a)
  let r := scaled - lo
  if okLo && okHi then
    (if r < 1 / 2 then some (lo, k)
     else if 1 / 2 < r then some (lo + 1, k)
     else if lo % 2 = 0 then some (lo, k) else some (lo + 1, k))
  else if okLo then some (lo, k)
  else if okHi then some (lo + 1, k)
  else none

/-- Drop the zeros at the end of `digits`, raising the exponent. -/
def trimZeros : ℕ → ℕ × ℤ → ℕ × ℤ
  | 0, d => d
  | fuel + 1, (digits, exp) =>
    if digits ≠ 0 ∧ digits % 10 = 0 then trimZeros fuel (digits / 10, exp + 1) else (digits, exp)

/-- The shortest decimal that reads back as the binary64 magnitude `a`
(`strconv` with precision `-1`); seventeen digits always suffice. -/
def shortest (a : ℚ) : ℕ × ℤ :=
  match [1, 2, 3, 4, 5, 6, 7, 8, 9, 10, 11, 12, 13, 14, 15, 16, 17].findSome? (roundTrip a) with
  | some d => trimZeros 20 d
  | none => ((⌊a / (10 : ℚ) ^ (decade a - 16)⌋).toNat, decade a - 16)

/-- A positive binary64 magnitude as `encoding/json` writes it: the shortest
digits, in positional form from `1e-6` up to `1e21`, otherwise with an
exponent of at least one digit. -/
def formatMagnitude (a : ℚ) : String :=
  let d := shortest a
  let ds := natDigits 40 d.1
  let m : ℤ := ds.length
  let p : ℤ := m + d.2
  if F64.round (1 / 1000000) = F64.finite a ∨ (1 / 1000000 < a ∧ a < 1000000000000000000000) then
    if p ≤ 0 then "0." ++ String.mk (List.replicate (-p).toNat '0') ++ ds
    else if m ≤ p then ds ++ String.mk (List.replicate (p - m).toNat '0')
    else String.mk (ds.toList.take p.toNat) ++ "." ++ String.mk (ds.toList.drop p.toNat)
  else
    String.mk (ds.toList.take 1) ++ (if 1 < m then "." ++ String.mk (ds.toList.drop 1) else "") ++
      "e" ++ (if p - 1 < 0 then "-" else "+") ++ natDigits 40 (p - 1).natAbs

/-- A finite `float64` as `encoding/json` writes it. -/
def formatFloat (q : ℚ) : String :=
  if q = 0 then "0"
  else if q < 0 then "-" ++ formatMagnitude (-q)
  else formatMagnitude q

def renderString (s : String) : String :=
  "\"" ++ String.join (s.toList.map fun c =>
    if c = Char.ofNat 34 then "\\\"" else if c = Char.ofNat 92 then "\\\\" else c.toString) ++ "\""

mutual
def renderValue : Value → Except String String
  | Value.nil => .ok "null"
  | Value.bool b => .ok (if b then "true" else "false")
  | Value.number literal => .ok literal
  | Value.float64 (F64.finite q) => .ok (formatFloat q)
  | Value.float64 _ => .error "json: unsupported value"
  | Value.string s => .ok (renderString s)
  | Value.slice elems =>
    match renderElems elems with
    | .ok inner => .ok ("[" ++ inner ++ "]")
    | .error e => .error e
  | Value.map entries =>
    match renderEntries entries with
    | .ok inner => .ok ("\x7b" ++ inner ++ "\x7d")
    | .error e => .error e
def renderElems : List Value → Except String String
  | [] => .ok ""
  | [x] => renderValue x
  | x :: y :: rest =>
    match renderValue x, renderElems (y :: rest) with
    | .ok a, .ok b => .ok (a ++ "," ++ b)
    | .error e, _ => .error e
    | _, .error e => .error e
def renderEntries : List (String × Value) → Except String String
  | [] => .ok ""
  | [(k, v)] =>
    match renderValue v with
    | .ok a => .ok (renderString k ++ ":" ++ a)
    | .error e => .error e
  | (k, v) :: e :: rest =>
    match renderValue v, renderEntries (e :: rest) with
    | .ok a, .ok b => .ok (renderString k ++ ":" ++ a ++ "," ++ b)
    | .error e, _ => .error e
    | _, .error e => .error e
end

def renderRequest (r : RPCRequest) : Except String String :=
  let head := "\x7b\"jsonrpc\":" ++ renderString r.JSONRPC ++ ",\"id\":" ++ toString r.ID ++
    ",\"method\":" ++ renderString r.Method
  match r.Params with
  | Value.nil => .ok (head ++ "\x7d")
  | p =>
    match renderValue p with
    | .ok a => .ok (head ++ ",\"params\":" ++ a ++ "\x7d")
    | .error e => .error e

def renderError (e : RPCError) : Except String String :=
  let head := "\x7b\"code\":" ++ toString e.Code ++ ",\"message\":" ++ renderString e.Message
  match e.Data with
  | Value.nil => .ok (head ++ "\x7d")
  | d =>
    match renderValue d with
    | .ok a => .ok (head ++ ",\"data\":" ++ a ++ "\x7d")
    | .error err => .error err

def renderResponse (r : RPCResponse) : Except String String :=
  let head := "\x7b\"jsonrpc\":" ++ renderString r.JSONRPC ++ ",\"id\":" ++ toString r.ID
  let result : Except String String :=
    match r.Result with
    | Value.nil => .ok ""
    | d =>
      match renderValue d with
      | .ok a => .ok (",\"result\":" ++ a)
      | .error e => .error e
  let error : Except String String :=
    match r.Error with
    | none => .ok ""
    | some e =>
      match renderError e with
      | .ok a => .ok (",\"error\":" ++ a)
      | .error err => .error err
  match result, error with
  | .ok a, .ok b => .ok (head ++ a ++ b ++ "\x7d")
  | .error e, _ => .error e
  | _, .error e => .error e

/-- A decoder for the request bodies used below. -/
def demoDecode (body : String) : Except String RPCRequest :=
  if body = "\x7b\"jsonrpc\":\"2.0\",\"id\":7,\"method\":\"eth_blockNumber\"\x7d" then
    .ok { JSONRPC := "2.0", ID := 7, Method := "eth_blockNumber", Params := Value.nil }
  else if body = "\x7b\"jsonrpc\":\"2.0\",\"id\":7,\"method\":\"eth_blockNumber\",\"params\":[]\x7d" then
    .ok { JSONRPC := "2.0", ID := 7, Method := "eth_blockNumber", Params := Value.slice [] }
  else if body = "\x7b\"jsonrpc\":\"2.0\",\"id\":3,\"method\":\"blockPerSecond\"\x7d" then
    .ok { JSONRPC := "2.0", ID := 3, Method := "blockPerSecond", Params := Value.nil }
  else if body = "\x7b\"jsonrpc\":\"2.0\",\"id\":4,\"method\":\"blockPerSecond\",\"params\":\x7b\"a\":1\x7d\x7d" then
    .ok { JSONRPC := "2.0", ID := 4, Method := "blockPerSecond",
          Params := Value.map [("a", Value.number "1")] }
  else if body = "\x7b\"jsonrpc\":\"2.0\",\"id\":5,\"method\":\"deny\",\"params\":[1]\x7d" then
    .ok { JSONRPC := "2.0", ID := 5, Method := "deny", Params := Value.slice [Value.number "1"] }
  else .error "invalid character"

def demoEnv : Env :=
  { jsonDecode := demoDecode
    marshalRequest := renderRequest
    marshalResponse := renderResponse
    JSONRPCParserError := -32700
    JSONRPCInnerError := -32603 }

/-- A handler that always fails, handing its arguments back. -/
def deny : handler :=
  fun _ args => (Value.slice args, some { ID := -32000, Message := "denied" })

/-- A server after `Run`, with `deny` registered as well. -/
def demoServer : Server :=
  Server.Run { dispatch := fun name => if name = "deny" then some deny else none
               timeEstimator := newBlockTimeEstimator.est }

/-- A server after `Run` whose estimator took its baseline and then saw
twenty new blocks with an unchanged clock reading. -/
def stalledServer : Server :=
  Server.Run
    { dispatch := fun _ => none
      timeEstimator := (estimateTask newBlockTimeEstimator
        [{ blkID := some 1000, now := 5, later := 5 },
         { blkID := some 1020, now := 5, later := 5 }]).est }

/-! ## Concrete runs -/

/-- The estimator of the specification's scenario: running, baseline height
`1000` at time `0`, the default still published. -/
def scenarioTask : Task :=
  { est := { blkPerSecond := F64.round (1 / 10) }
    running := true
    lastMesaure := 0
    lastblkID := 1000 }

/-- The tick of the scenario: height `1020` ten seconds after the baseline,
the second clock reading a millisecond later. -/
def scenarioSample : Sample :=
  { blkID := some 1020, now := 10000000000, later := 10001000000 }

/-- The estimator after the tick of the scenario. -/
def settledTask : Task :=
  { est := { blkPerSecond := F64.finite 2 }
    running := true
    lastMesaure := 10001000000
    lastblkID := 1020 }

/-- A tick that reports the height `1020` again, ten seconds on. -/
def repeatSample : Sample :=
  { blkID := some 1020, now := 20000000000, later := 20000000000 }

/-- A run from creation: a failed bootstrap query, a successful one, a tick
that sees no new block, a tick that sees twenty. -/
def scenarioRun : List Sample :=
  [{ blkID := none, now := 0, later := 0 },
   { blkID := some 1000, now := 1000000, later := 1000000 },
   { blkID := some 1000, now := 10000000000, later := 10000000000 },
   { blkID := some 1020, now := 20000000000, later := 20001000000 }]

/-- A run from creation in which no tick sees a new block. -/
def quietSamples : List Sample :=
  [{ blkID := none, now := 0, later := 0 },
   { blkID := none, now := 1000, later := 1000 },
   { blkID := some 1000, now := 1000000, later := 1000000 },
   { blkID := some 1000, now := 10000000000, later := 10000000000 }]

/-! ## Predicates on runs and requests -/

/-- A pass is a tick that sees a height strictly above the baseline. -/
def observesProgress (t : Task) (s : Sample) : Bool :=
  t.running && (match s.blkID with
    | some blkID => decide (blkID > t.lastblkID)
    | none => false)

/-- No pass of the run is a tick that sees a height strictly above the
baseline. -/
def quietRun : Task → List Sample → Bool
  | _, [] => true
  | t, s :: rest => !observesProgress t s && quietRun (estimatePass t s) rest

/-- Every tick of the run that sees a height strictly above the baseline
reads its clock strictly after the baseline time. -/
def clockAdvances : Task → List Sample → Bool
  | _, [] => true
  | t, s :: rest =>
    (!observesProgress t s || decide (t.lastMesaure < s.now)) &&
      clockAdvances (estimatePass t s) rest

/-- The request the specification has forwarded: `params` made an empty
sequence when it is nil, nothing else touched. -/
def specNormalized (r : RPCRequest) : RPCRequest :=
  match r.Params with
  | Value.nil => { r with Params := Value.slice [] }
  | _ => r

/-! ## Rounding lemmas -/

namespace F64

theorem two_zpow_pos (e : ℤ) : (0 : ℚ) < 2 ^ e := zpow_pos (by norm_num) e

/-- Bisection keeps its lower end below the magnitude, or at the least
exponent. -/
theorem bisect_le (a : ℚ) (steps : List ℤ) (lo : ℤ)
    (h : (2 : ℚ) ^ lo ≤ max a (2 ^ (-1022 : ℤ))) :
    (2 : ℚ) ^ (steps.foldl
      (fun lo step => if (2 : ℚ) ^ (lo + step) ≤ a then lo + step else lo) lo)
      ≤ max a (2 ^ (-1022 : ℤ)) := by
  induction steps generalizing lo with
  | nil => simpa using h
  | cons s rest ih =>
    simp only [List.foldl_cons]
    apply ih
    split_ifs with hs
    · exact le_trans hs (le_max_left _ _)
    · exact h

theorem two_zpow_binade_le (a : ℚ) : (2 : ℚ) ^ binade a ≤ max a (2 ^ (-1022 : ℤ)) :=
  bisect_le a _ _ (le_max_right _ _)

theorem ulp_pos (a : ℚ) : 0 < ulp a := two_zpow_pos _

theorem ulp_le (a : ℚ) : ulp a ≤ max a (2 ^ (-1022 : ℤ)) * 2 ^ (-52 : ℤ) := by
  unfold ulp
  rw [sub_eq_add_neg, zpow_add₀ (by norm_num : (2 : ℚ) ≠ 0)]
  exact mul_le_mul_of_nonneg_right (two_zpow_binade_le a) (two_zpow_pos _).le

theorem roundMag_bounds (a : ℚ) (ha : 0 ≤ a) :
    0 ≤ roundMag a ∧ a - ulp a ≤ roundMag a ∧ roundMag a ≤ a + ulp a := by
  have hu := ulp_pos a
  have hm : 0 ≤ a / ulp a := div_nonneg ha hu.le
  have hf0 : (0 : ℤ) ≤ ⌊a / ulp a⌋ := Int.floor_nonneg.mpr hm
  have hfle : ((⌊a / ulp a⌋ : ℤ) : ℚ) ≤ a / ulp a := Int.floor_le _
  have hflt : a / ulp a < ((⌊a / ulp a⌋ : ℤ) : ℚ) + 1 := Int.lt_floor_add_one _
  have hmul : a / ulp a * ulp a = a := div_mul_cancel₀ a hu.ne'
  have key : ∀ n : ℤ, (n = ⌊a / ulp a⌋ ∨ n = ⌊a / ulp a⌋ + 1) →
      0 ≤ (n : ℚ) * ulp a ∧ a - ulp a ≤ (n : ℚ) * ulp a ∧ (n : ℚ) * ulp a ≤ a + ulp a := by
    intro n hn
    have hf0q : (0 : ℚ) ≤ ((⌊a / ulp a⌋ : ℤ) : ℚ) := by exact_mod_cast hf0
    rcases hn with rfl | rfl
    · refine ⟨mul_nonneg hf0q hu.le, ?_, ?_⟩ <;> nlinarith
    · push_cast
      refine ⟨by nlinarith, ?_, ?_⟩ <;> nlinarith
  unfold roundMag
  apply key
  split_ifs <;> simp

/-- Rounding a non-negative exact result below `2^1000` gives a finite,
non-negative value at most `2q + 1`. -/
theorem round_nonneg_bounds (q : ℚ) (h0 : 0 ≤ q) (h1 : q ≤ 2 ^ (1000 : ℕ)) :
    ∃ v, round q = finite v ∧ 0 ≤ v ∧ v ≤ 2 * q + 1 := by
  obtain ⟨hr0, -, hr2⟩ := roundMag_bounds |q| (abs_nonneg q)
  rw [abs_of_nonneg h0] at hr0 hr2
  have hu := ulp_le q
  have hmax : max q (2 ^ (-1022 : ℤ)) ≤ q + 1 := by
    apply max_le (by linarith)
    have : (2 : ℚ) ^ (-1022 : ℤ) ≤ 1 := zpow_le_one_of_nonpos₀ (by norm_num) (by norm_num)
    linarith
  have h52 : (2 : ℚ) ^ (-52 : ℤ) ≤ 1 := zpow_le_one_of_nonpos₀ (by norm_num) (by norm_num)
  have hulp : ulp q ≤ q + 1 := by
    calc ulp q ≤ max q (2 ^ (-1022 : ℤ)) * 2 ^ (-52 : ℤ) := hu
      _ ≤ (q + 1) * 1 := by
          apply mul_le_mul hmax h52 (two_zpow_pos _).le (by linarith)
      _ = q + 1 := mul_one _
  have hlt : ¬ (2 : ℚ) ^ (1024 : ℕ) ≤ roundMag q := by
    have : (2 : ℚ) ^ (1024 : ℕ) = 2 ^ (1000 : ℕ) * 2 ^ (24 : ℕ) := by rw [← pow_add]
    have h24 : (4 : ℚ) ≤ 2 ^ (24 : ℕ) := by norm_num
    have hp : (1 : ℚ) ≤ 2 ^ (1000 : ℕ) := one_le_pow₀ (by norm_num)
    intro hc
    nlinarith
  refine ⟨roundMag q, ?_, hr0, by linarith⟩
  unfold round
  rw [abs_of_nonneg h0]
  simp [hlt, not_lt.mpr h0]

/-- Rounding an exact result in the normal range and below `2^1000` gives a
finite value between `q / 2` and `2q`. -/
theorem round_normal_bounds (q : ℚ) (h0 : 2 ^ (-1022 : ℤ) ≤ q) (h1 : q ≤ 2 ^ (1000 : ℕ)) :
    ∃ v, round q = finite v ∧ q / 2 ≤ v ∧ v ≤ 2 * q := by
  have hq0 : 0 < q := lt_of_lt_of_le (two_zpow_pos _) h0
  obtain ⟨-, hr1, hr2⟩ := roundMag_bounds |q| (abs_nonneg q)
  rw [abs_of_nonneg hq0.le] at hr1 hr2
  have hu := ulp_le q
  rw [max_eq_left h0] at hu
  have h52 : (2 : ℚ) ^ (-52 : ℤ) ≤ 1 / 2 := by
    rw [show (1 / 2 : ℚ) = 2 ^ (-1 : ℤ) by norm_num]
    exact zpow_le_zpow_right₀ (by norm_num) (by norm_num)
  have hulp : ulp q ≤ q / 2 := by
    calc ulp q ≤ q * 2 ^ (-52 : ℤ) := hu
      _ ≤ q * (1 / 2) := mul_le_mul_of_nonneg_left h52 hq0.le
      _ = q / 2 := by ring
  have hlt : ¬ (2 : ℚ) ^ (1024 : ℕ) ≤ roundMag q := by
    have : (2 : ℚ) ^ (1024 : ℕ) = 2 ^ (1000 : ℕ) * 2 ^ (24 : ℕ) := by rw [← pow_add]
    have h24 : (4 : ℚ) ≤ 2 ^ (24 : ℕ) := by norm_num
    intro hc
    nlinarith
  refine ⟨roundMag q, ?_, by linarith, by linarith⟩
  unfold round
  rw [abs_of_nonneg hq0.le]
  simp [hlt, not_lt.mpr hq0.le]

end F64


theorem tiny_le (q : ℚ) (h : (1 : ℚ) / 2 ^ (40 : ℕ) ≤ q) : (2 : ℚ) ^ (-1022 : ℤ) ≤ q := by
  have : (2 : ℚ) ^ (-1022 : ℤ) ≤ 2 ^ (-40 : ℤ) :=
    zpow_le_zpow_right₀ (by norm_num) (by norm_num)
  have h2 : (2 : ℚ) ^ (-40 : ℤ) = 1 / 2 ^ (40 : ℕ) := by
    rw [zpow_neg, one_div]; norm_cast
  exact le_trans this (h2 ▸ h)

theorem small_le (q : ℚ) (h : q ≤ 2 ^ (200 : ℕ)) : q ≤ 2 ^ (1000 : ℕ) :=
  le_trans h (pow_le_pow_right₀ (by norm_num) (by norm_num))

/-- A positive duration has a finite, positive number of seconds. -/
theorem seconds_of_pos (d : Duration) (h0 : 0 < d) (h1 : d ≤ maxDuration) :
    ∃ s, Duration.Seconds d = F64.finite s ∧ 1 / 2 ^ (40 : ℕ) ≤ s ∧ s ≤ 2 ^ (66 : ℕ) := by
  unfold Duration.Seconds F64.ofInt64
  rw [show Second = (1000000000 : ℤ) from rfl]
  have hS : (0 : ℤ) < 1000000000 := by decide
  have h0' : (0 : ℤ) < d := h0
  have h1' : @LE.le ℤ _ d 9223372036854775807 := h1
  have hsec0 : 0 ≤ d.tdiv 1000000000 := Int.tdiv_nonneg h0.le hS.le
  have hns0 : 0 ≤ d.tmod 1000000000 := Int.tmod_nonneg _ h0.le
  have hnslt : d.tmod 1000000000 < 1000000000 := Int.tmod_lt_of_pos _ hS
  have hsplit : 1000000000 * d.tdiv 1000000000 + d.tmod 1000000000 = d := Int.tdiv_add_tmod d 1000000000
  have hsecle : d.tdiv 1000000000 ≤ 2 ^ 63 := by
    have : d.tdiv 1000000000 ≤ 9223372036854775808 := by omega
    exact this
  have hsecq0 : (0 : ℚ) ≤ (d.tdiv 1000000000 : ℚ) := by exact_mod_cast hsec0
  have hsecqle : ((d.tdiv 1000000000 : ℤ) : ℚ) ≤ 2 ^ (63 : ℕ) := by exact_mod_cast hsecle
  have hnsq0 : (0 : ℚ) ≤ (d.tmod 1000000000 : ℚ) := by exact_mod_cast hns0
  have hnsqle : ((d.tmod 1000000000 : ℤ) : ℚ) ≤ 1000000000 := by
    have : d.tmod 1000000000 ≤ 1000000000 := by omega
    exact_mod_cast this
  obtain ⟨fs, hfs, hfs0, hfs1⟩ := F64.round_nonneg_bounds _ hsecq0
    (small_le _ (le_trans hsecqle (pow_le_pow_right₀ (by norm_num) (by norm_num))))
  obtain ⟨fn, hfn, hfn0, hfn1⟩ := F64.round_nonneg_bounds _ hnsq0
    (small_le _ (le_trans hnsqle (by norm_num)))
  obtain ⟨c, hc, hc0, hc1⟩ := F64.round_normal_bounds 1000000000
    (tiny_le _ (by norm_num)) (small_le _ (by norm_num))
  have hcpos : 0 < c := by linarith
  have hx0 : 0 ≤ fn / c := div_nonneg hfn0 hcpos.le
  have hx1 : fn / c ≤ 5 := by
    rw [div_le_iff₀ hcpos]; linarith
  obtain ⟨rx, hrx, hrx0, hrx1⟩ := F64.round_nonneg_bounds _ hx0 (small_le _ (le_trans hx1 (by norm_num)))
  have hsum1 : fs + rx ≤ 2 ^ (65 : ℕ) := by
    have : (2 : ℚ) ^ (65 : ℕ) = 2 * 2 ^ (63 : ℕ) + 2 * 2 ^ (63 : ℕ) := by norm_num
    have : (12 : ℚ) ≤ 2 * 2 ^ (63 : ℕ) := by norm_num
    linarith
  have hsum0 : 1 / 2 ^ (38 : ℕ) ≤ fs + rx := by
    rcases Int.lt_or_le 0 (d.tdiv 1000000000) with hpos | hzero
    · have h1le : (1 : ℚ) ≤ (d.tdiv 1000000000 : ℚ) := by exact_mod_cast hpos
      obtain ⟨fs', hfs', hfs'0, -⟩ := F64.round_normal_bounds _
        (tiny_le _ (le_trans (by norm_num) h1le))
        (small_le _ (le_trans hsecqle (pow_le_pow_right₀ (by norm_num) (by norm_num))))
      have : fs = fs' := by
        have := hfs.symm.trans hfs'
        exact F64.finite.inj this
      subst this
      have : (1 : ℚ) / 2 ^ (38 : ℕ) ≤ 1 / 2 := by norm_num
      linarith
    · have hsec : d.tdiv 1000000000 = 0 := le_antisymm hzero hsec0
      have hnspos : 0 < d.tmod 1000000000 := by
        rw [hsec] at hsplit; omega
      have h1le : (1 : ℚ) ≤ (d.tmod 1000000000 : ℚ) := by exact_mod_cast hnspos
      obtain ⟨fn', hfn', hfn'0, -⟩ := F64.round_normal_bounds _
        (tiny_le _ (le_trans (by norm_num) h1le)) (small_le _ (le_trans hnsqle (by norm_num)))
      have : fn = fn' := F64.finite.inj (hfn.symm.trans hfn')
      subst this
      have hxlo : 1 / 2 ^ (37 : ℕ) ≤ fn / c := by
        rw [le_div_iff₀ hcpos]
        have : (1 : ℚ) / 2 ^ (37 : ℕ) * c ≤ 1 / 2 ^ (37 : ℕ) * (2 * 1000000000) :=
          mul_le_mul_of_nonneg_left hc1 (by positivity)
        have h3 : (1 : ℚ) / 2 ^ (37 : ℕ) * (2 * 1000000000) ≤ 1 / 2 := by norm_num
        linarith
      obtain ⟨rx', hrx', hrx'0, -⟩ := F64.round_normal_bounds _
        (tiny_le _ (le_trans (by norm_num) hxlo)) (small_le _ (le_trans hx1 (by norm_num)))
      have : rx = rx' := F64.finite.inj (hrx.symm.trans hrx')
      subst this
      have : (1 : ℚ) / 2 ^ (38 : ℕ) = 1 / 2 ^ (37 : ℕ) / 2 := by norm_num
      linarith
  obtain ⟨rs, hrs, hrs0, hrs1⟩ := F64.round_normal_bounds _
    (tiny_le _ (le_trans (by norm_num) hsum0))
    (small_le _ (le_trans hsum1 (pow_le_pow_right₀ (by norm_num) (by norm_num))))
  refine ⟨rs, ?_, ?_, ?_⟩
  · rw [hfs, hfn, hc]
    simp only [F64.div, hcpos.ne', if_false, hrx, F64.add, hrs]
  · have : (1 : ℚ) / 2 ^ (40 : ℕ) ≤ 1 / 2 ^ (38 : ℕ) / 2 := by norm_num
    linarith
  · have : (2 : ℚ) ^ (66 : ℕ) = 2 * 2 ^ (65 : ℕ) := by norm_num
    linarith

/-- The rate a tick computes from a height difference and a positive elapsed
time is a finite, non-negative number. -/
theorem rate_finiteNonneg (k : ℕ) (d : Duration) (hk : k < 2 ^ 64)
    (h0 : 0 < d) (h1 : d ≤ maxDuration) :
    F64.FiniteNonneg (F64.div (F64.ofUInt64 k) (Duration.Seconds d)) := by
  obtain ⟨s, hs, hs0, hs1⟩ := seconds_of_pos d h0 h1
  have hspos : 0 < s := lt_of_lt_of_le (by positivity) hs0
  have hkq0 : (0 : ℚ) ≤ (k : ℚ) := Nat.cast_nonneg k
  have hkq1 : (k : ℚ) ≤ 2 ^ (64 : ℕ) := by exact_mod_cast hk.le
  obtain ⟨fk, hfk, hfk0, hfk1⟩ := F64.round_nonneg_bounds _ hkq0
    (small_le _ (le_trans hkq1 (pow_le_pow_right₀ (by norm_num) (by norm_num))))
  have hq0 : 0 ≤ fk / s := div_nonneg hfk0 hspos.le
  have hq1 : fk / s ≤ 2 ^ (106 : ℕ) := by
    rw [div_le_iff₀ hspos]
    have h2 : (2 : ℚ) ^ (106 : ℕ) * (1 / 2 ^ (40 : ℕ)) ≤ 2 ^ (106 : ℕ) * s :=
      mul_le_mul_of_nonneg_left hs0 (by positivity)
    have h3 : (2 : ℚ) ^ (106 : ℕ) * (1 / 2 ^ (40 : ℕ)) = 2 ^ (66 : ℕ) := by norm_num
    have h4 : (2 : ℚ) * 2 ^ (64 : ℕ) + 1 ≤ 2 ^ (66 : ℕ) := by norm_num
    linarith
  obtain ⟨v, hv, hv0, -⟩ := F64.round_nonneg_bounds _ hq0
    (small_le _ (le_trans hq1 (pow_le_pow_right₀ (by norm_num) (by norm_num))))
  unfold F64.ofUInt64
  rw [hfk, hs]
  simp only [F64.div, hspos.ne', if_false, hv, F64.FiniteNonneg]
  exact hv0

/-! ## Estimator lemmas -/

theorem sub_of_lt (t u : Time) (h : u < t) :
    0 < Time.Sub t u ∧ Time.Sub t u ≤ maxDuration := by
  have h' : (0 : ℤ) < t - u := sub_pos.mpr h
  unfold Time.Sub minDuration maxDuration
  split_ifs with h1 h2
  · exfalso
    have h63 : (-(2 ^ 63) : ℤ) < 0 := by norm_num
    exact absurd (lt_trans (lt_trans h1 h63) h') (lt_irrefl _)
  · norm_num
  · exact ⟨h', not_lt.mp h2⟩

theorem subUInt64_lt (a b : ℕ) : subUInt64 a b < 2 ^ 64 :=
  Nat.mod_lt _ (by norm_num)

theorem subUInt64_of_lt (a b : ℕ) (h : b < a) (ha : a < 2 ^ 64) : subUInt64 a b = a - b := by
  unfold subUInt64
  have : a + 2 ^ 64 - b = (a - b) + 2 ^ 64 := by omega
  rw [this, Nat.add_mod_right]
  exact Nat.mod_eq_of_lt (by omega)

theorem default_finiteNonneg : F64.FiniteNonneg (F64.round (1 / 10)) := by
  obtain ⟨v, hv, hv0, -⟩ := F64.round_nonneg_bounds (1 / 10) (by norm_num)
    (le_trans (by norm_num) (one_le_pow₀ (by norm_num : (1 : ℚ) ≤ 2)))
  rw [hv]
  exact hv0

/-- One pass keeps the snapshot finite and non-negative when, if it is a
tick that sees progress, its clock reading is after the baseline time. -/
theorem estimatePass_finiteNonneg (t : Task) (s : Sample)
    (hc : (!observesProgress t s || decide (t.lastMesaure < s.now)) = true)
    (hinv : F64.FiniteNonneg t.est.getBPS) :
    F64.FiniteNonneg (estimatePass t s).est.getBPS := by
  unfold estimatePass
  cases hrun : t.running with
  | false =>
    simp only [Bool.false_eq_true, if_false]
    unfold bootstrapPass
    cases s.blkID <;> exact hinv
  | true =>
    simp only [if_true]
    unfold tickPass
    cases hb : s.blkID with
    | none => exact hinv
    | some blkID =>
      simp only
      split_ifs with hgt
      · have hlt : t.lastMesaure < s.now := by
          simpa [observesProgress, hrun, hb, hgt] using hc
        obtain ⟨hd0, hd1⟩ := sub_of_lt _ _ hlt
        exact rate_finiteNonneg _ _ (subUInt64_lt _ _) hd0 hd1
      · exact hinv

theorem estimateTask_finiteNonneg (samples : List Sample) (t : Task)
    (hc : clockAdvances t samples = true) (hinv : F64.FiniteNonneg t.est.getBPS) :
    F64.FiniteNonneg (estimateTask t samples).est.getBPS := by
  induction samples generalizing t with
  | nil => exact hinv
  | cons s rest ih =>
    simp only [clockAdvances, Bool.and_eq_true] at hc
    exact ih (estimatePass t s) hc.2 (estimatePass_finiteNonneg t s hc.1 hinv)

theorem clockAdvances_take (samples : List Sample) (t : Task) (n : ℕ)
    (hc : clockAdvances t samples = true) : clockAdvances t (samples.take n) = true := by
  induction samples generalizing t n with
  | nil => simp [clockAdvances]
  | cons s rest ih =>
    cases n with
    | zero => simp [clockAdvances]
    | succ n =>
      simp only [clockAdvances, Bool.and_eq_true, List.take_succ_cons] at hc ⊢
      exact ⟨hc.1, ih _ n hc.2⟩

theorem estimatePass_quiet (t : Task) (s : Sample) (hq : observesProgress t s = false) :
    (estimatePass t s).est = t.est := by
  unfold estimatePass
  cases hrun : t.running with
  | false =>
    simp only [Bool.false_eq_true, if_false]
    unfold bootstrapPass
    cases s.blkID <;> rfl
  | true =>
    simp only [if_true]
    unfold tickPass
    cases hb : s.blkID with
    | none => rfl
    | some blkID =>
      have : ¬ blkID > t.lastblkID := by
        simpa [observesProgress, hrun, hb] using hq
      simp [this]

theorem estimateTask_quiet (samples : List Sample) (t : Task)
    (hq : quietRun t samples = true) : (estimateTask t samples).est = t.est := by
  induction samples generalizing t with
  | nil => rfl
  | cons s rest ih =>
    simp only [quietRun, Bool.and_eq_true, Bool.not_eq_true'] at hq
    have := ih (estimatePass t s) hq.2
    simp only [estimateTask, List.foldl_cons] at this ⊢
    rw [this, estimatePass_quiet t s hq.1]

theorem estimateTask_failures (fails : List Sample) (t : Task)
    (hrun : t.running = false) (hf : ∀ s ∈ fails, s.blkID = none) :
    estimateTask t fails = t := by
  induction fails with
  | nil => rfl
  | cons s rest ih =>
    have hs : s.blkID = none := hf s (List.mem_cons_self _ _)
    have hstep : estimatePass t s = t := by
      simp [estimatePass, hrun, bootstrapPass, hs]
    simp only [estimateTask, List.foldl_cons, hstep]
    exact ih (fun x hx => hf x (List.mem_cons_of_mem _ hx))

theorem scenario_rate :
    F64.div (F64.ofUInt64 (subUInt64 1020 1000)) (Duration.Seconds 10000000000) = F64.finite 2 := by
  decide!

theorem running_tick_rate (est : BlockTimeEstimator) (last blkID : ℕ) (T now later : Time)
    (hgt : last < blkID) :
    (estimatePass { est := est, running := true, lastMesaure := T, lastblkID := last }
      { blkID := some blkID, now := now, later := later }).est.getBPS =
      F64.div (F64.ofUInt64 (subUInt64 blkID last)) (Duration.Seconds (Time.Sub now T)) := by
  simp only [estimatePass, if_true, tickPass, gt_iff_lt, hgt, BlockTimeEstimator.getBPS]

theorem sub_ten_seconds (T : Time) : Time.Sub (T + 10 * Second) T = 10000000000 := by
  have : T + 10 * Second - T = 10000000000 := by unfold Second; ring
  unfold Time.Sub
  rw [this]
  decide

theorem newBlockTimeEstimator_getBPS :
    newBlockTimeEstimator.est.getBPS = F64.round (1 / 10) := by
  simp only [newBlockTimeEstimator, BlockTimeEstimator.getBPS]

/-! ## Estimator properties -/

/-- C3, as the code has it: in the Running phase, a tick whose height query
succeeds with a height strictly above the baseline publishes
`float64(new height - baseline height)` divided by the seconds elapsed from
the baseline time to the first clock reading of the tick; the baseline height
becomes the new height and the baseline time becomes the second clock reading
of the tick, taken after the snapshot is published.  Baseline `(1000, T)`
followed by a sample `(1020, T + 10s)` publishes `2.0`. -/
theorem tick_publishes_rate (t : Task) (s : Sample) (blkID : ℕ)
    (hrun : t.running = true) (hok : s.blkID = some blkID)
    (hgt : t.lastblkID < blkID) (hrange : blkID < 2 ^ 64) :
    estimatePass t s =
      { est := { blkPerSecond := F64.div (F64.ofUInt64 (blkID - t.lastblkID))
                  (Duration.Seconds (Time.Sub s.now t.lastMesaure)) }
        running := true
        lastMesaure := s.later
        lastblkID := blkID } ∧
    (∀ (est : BlockTimeEstimator) (T later : Time),
      (estimatePass { est := est, running := true, lastMesaure := T, lastblkID := 1000 }
        { blkID := some 1020, now := T + 10 * Second, later := later }).est.getBPS
        = F64.finite 2) := by
  constructor
  · simp only [estimatePass, hrun, if_true, tickPass, hok, gt_iff_lt, hgt,
      subUInt64_of_lt _ _ hgt hrange]
  · intro est T later
    rw [running_tick_rate est 1000 1020 T (T + 10 * Second) later (by decide), sub_ten_seconds]
    exact scenario_rate

/-- Witness of C3: the scenario of the specification, the second clock
reading of the tick one millisecond after the first. -/
theorem tick_publishes_rate_witness :
    estimatePass scenarioTask scenarioSample =
      { est := { blkPerSecond := F64.div (F64.ofUInt64 (1020 - scenarioTask.lastblkID))
                  (Duration.Seconds (Time.Sub scenarioSample.now scenarioTask.lastMesaure)) }
        running := true
        lastMesaure := scenarioSample.later
        lastblkID := 1020 } :=
  (tick_publishes_rate scenarioTask scenarioSample 1020 rfl rfl (by decide) (by decide)).1

/-- Counterexample to C3 as stated: the tick publishes `2.0`, and the
baseline time after it is not the time the rate was computed from. -/
theorem baseline_time_is_second_reading :
    (estimatePass scenarioTask scenarioSample).est.getBPS = F64.finite 2 ∧
    (estimatePass scenarioTask scenarioSample).lastblkID = 1020 ∧
    (estimatePass scenarioTask scenarioSample).lastMesaure = 10001000000 ∧
    (estimatePass scenarioTask scenarioSample).lastMesaure ≠ scenarioSample.now := by
  decide!

/-- C4: in the Running phase, a tick whose height query fails, or succeeds
with a height equal to or below the baseline, leaves the snapshot, the
baseline height and the baseline time as they were; so a tick after which the
snapshot differs saw a height strictly above the baseline. -/
theorem tick_without_progress (t : Task) (s : Sample) (hrun : t.running = true) :
    ((s.blkID = none ∨ ∃ blkID, s.blkID = some blkID ∧ blkID ≤ t.lastblkID) →
      estimatePass t s = t) ∧
    ((estimatePass t s).est.getBPS ≠ t.est.getBPS →
      ∃ blkID, s.blkID = some blkID ∧ t.lastblkID < blkID) := by
  constructor
  · rintro (hnone | ⟨blkID, hsome, hle⟩)
    · simp only [estimatePass, hrun, if_true, tickPass, hnone]
    · simp only [estimatePass, hrun, if_true, tickPass, hsome, gt_iff_lt, not_lt.mpr hle,
        if_false]
  · intro hne
    cases hb : s.blkID with
    | none =>
      exact absurd (by simp only [estimatePass, hrun, if_true, tickPass, hb]) hne
    | some blkID =>
      by_cases hgt : t.lastblkID < blkID
      · exact ⟨blkID, rfl, hgt⟩
      · exact absurd (by simp only [estimatePass, hrun, if_true, tickPass, hb, gt_iff_lt, hgt,
          if_false]) hne

/-- Witness of C4: after rate `2.0` at baseline `1020`, a tick that reports
`1020` again changes nothing. -/
theorem tick_without_progress_witness :
    estimatePass settledTask repeatSample = settledTask :=
  (tick_without_progress settledTask repeatSample rfl).1 (Or.inr ⟨1020, rfl, le_refl _⟩)

/-- C5, as the code has it: when every tick that sees a height strictly above
the baseline reads its clock strictly after the baseline time, the value
`getBPS` returns, and `blockPerSecond` with it, is a finite non-negative
number after every number of passes of every run from creation. -/
theorem getBPS_finiteNonneg (samples : List Sample)
    (hc : clockAdvances newBlockTimeEstimator samples = true) (n : ℕ) :
    F64.FiniteNonneg (estimateTask newBlockTimeEstimator (samples.take n)).est.getBPS ∧
    ∀ args : List Value,
      blockPerSecond (estimateTask newBlockTimeEstimator (samples.take n)).est args =
        (Value.float64 (estimateTask newBlockTimeEstimator (samples.take n)).est.getBPS, none) := by
  refine ⟨?_, fun _ => rfl⟩
  apply estimateTask_finiteNonneg _ _ (clockAdvances_take samples _ n hc)
  rw [newBlockTimeEstimator_getBPS]
  exact default_finiteNonneg

/-- Witness of C5: a failed bootstrap attempt, a successful one, a tick that
sees no progress and a tick that sees progress ten seconds after the
baseline. -/
theorem getBPS_finiteNonneg_witness :
    clockAdvances newBlockTimeEstimator scenarioRun = true ∧
    F64.FiniteNonneg (estimateTask newBlockTimeEstimator (scenarioRun.take 4)).est.getBPS :=
  ⟨by decide, (getBPS_finiteNonneg scenarioRun (by decide) 4).1⟩

/-- Counterexample to C5 as stated: with a clock that stands still between
the baseline and the tick the published rate is `+Inf`, with a clock that
steps back it is negative. -/
theorem rate_not_finiteNonneg :
    (estimateTask newBlockTimeEstimator
      [{ blkID := some 1000, now := 5, later := 5 },
       { blkID := some 1020, now := 5, later := 5 }]).est.getBPS = F64.inf false ∧
    ¬ F64.FiniteNonneg (estimateTask newBlockTimeEstimator
      [{ blkID := some 1000, now := 5, later := 5 },
       { blkID := some 1020, now := 5, later := 5 }]).est.getBPS ∧
    (estimateTask newBlockTimeEstimator
      [{ blkID := some 1000, now := 5, later := 5 },
       { blkID := some 1020, now := 4, later := 4 }]).est.getBPS = F64.finite (-20000000000) ∧
    ¬ F64.FiniteNonneg (estimateTask newBlockTimeEstimator
      [{ blkID := some 1000, now := 5, later := 5 },
       { blkID := some 1020, now := 4, later := 4 }]).est.getBPS := by
  decide!

/-- C10: from creation, as long as no tick has seen a height strictly above
the baseline, `getBPS` and `blockPerSecond` return the default, the `float64`
nearest to `0.1`; in particular after any number of failed bootstrap queries
(the task still bootstrapping) and after the query that ends the bootstrap. -/
theorem default_until_progress (samples : List Sample)
    (hq : quietRun newBlockTimeEstimator samples = true) :
    (estimateTask newBlockTimeEstimator samples).est.getBPS = F64.round (1 / 10) ∧
    (∀ args : List Value,
      blockPerSecond (estimateTask newBlockTimeEstimator samples).est args =
        (Value.float64 (F64.round (1 / 10)), none)) ∧
    F64.round (1 / 10) = F64.finite (3602879701896397 / 36028797018963968) ∧
    (∀ (fails : List Sample) (blkID : ℕ) (now later : Time),
      (∀ s ∈ fails, s.blkID = none) →
      (estimateTask newBlockTimeEstimator fails).running = false ∧
      (estimateTask newBlockTimeEstimator fails).est.getBPS = F64.round (1 / 10) ∧
      (estimateTask newBlockTimeEstimator
        (fails ++ [{ blkID := some blkID, now := now, later := later }])).running = true ∧
      (estimateTask newBlockTimeEstimator
        (fails ++ [{ blkID := some blkID, now := now, later := later }])).est.getBPS
          = F64.round (1 / 10)) := by
  have hmain : (estimateTask newBlockTimeEstimator samples).est.getBPS = F64.round (1 / 10) := by
    rw [estimateTask_quiet samples _ hq]
    exact newBlockTimeEstimator_getBPS
  refine ⟨hmain, ?_, by decide!, ?_⟩
  · intro args
    simp only [blockPerSecond, hmain]
  · intro fails blkID now later hf
    have h1 := estimateTask_failures fails newBlockTimeEstimator rfl hf
    have h2 : estimateTask newBlockTimeEstimator
        (fails ++ [{ blkID := some blkID, now := now, later := later }]) =
        { newBlockTimeEstimator with lastblkID := blkID, lastMesaure := now, running := true } := by
      simp only [estimateTask, List.foldl_append, List.foldl_cons, List.foldl_nil] at h1 ⊢
      rw [h1]
      simp only [estimatePass, newBlockTimeEstimator, Bool.false_eq_true, if_false, bootstrapPass]
    rw [h1, h2]
    exact ⟨rfl, newBlockTimeEstimator_getBPS, rfl, newBlockTimeEstimator_getBPS⟩

/-- Witness of C10: two failed bootstrap queries, the successful one, and a
tick that reports the same height. -/
theorem default_until_progress_witness :
    quietRun newBlockTimeEstimator quietSamples = true ∧
    (estimateTask newBlockTimeEstimator quietSamples).est.getBPS = F64.round (1 / 10) :=
  ⟨by decide, (default_until_progress quietSamples (by decide)).1⟩
/-! ## Dispatcher properties -/

/-- C1, as the code has it: for a request that decodes and whose method is
not registered, the body handed to the reverse proxy is the serialization of
the request exactly as decoded, `params` included (a nil `params` stays nil),
nothing is written locally and no handler runs; that request is the
normalized one whenever `params` was not nil. -/
theorem forward_as_decoded (env : Env) (server : Server) (body : String)
    (request : RPCRequest) (data : String)
    (hdec : decodeRPCRequest env body = .ok request)
    (hreg : server.dispatch request.Method = none)
    (hmar : env.marshalRequest request = .ok data) :
    dispatchRequest env server body =
      { writer := [], invoked := [], proxied := some data, panicked := false } ∧
    (request.Params ≠ Value.nil → specNormalized request = request) := by
  constructor
  · simp only [dispatchRequest, hdec, hreg, hmar]
  · intro hne
    unfold specNormalized
    split
    · next h => exact absurd h hne
    · rfl

/-- Witness of C1: a request for `eth_blockNumber` without `params`. -/
theorem forward_as_decoded_witness :
    dispatchRequest demoEnv demoServer
        "\x7b\"jsonrpc\":\"2.0\",\"id\":7,\"method\":\"eth_blockNumber\"\x7d" =
      { writer := [], invoked := []
        proxied := some "\x7b\"jsonrpc\":\"2.0\",\"id\":7,\"method\":\"eth_blockNumber\"\x7d"
        panicked := false } :=
  (forward_as_decoded demoEnv demoServer
    "\x7b\"jsonrpc\":\"2.0\",\"id\":7,\"method\":\"eth_blockNumber\"\x7d"
    { JSONRPC := "2.0", ID := 7, Method := "eth_blockNumber", Params := Value.nil }
    "\x7b\"jsonrpc\":\"2.0\",\"id\":7,\"method\":\"eth_blockNumber\"\x7d"
    rfl rfl (by decide)).1

/-- Counterexample to C1 as stated: for a request without `params` the body
forwarded carries no `params`, and is not the serialization of the request
with `params` made an empty sequence. -/
theorem forward_not_normalized :
    (dispatchRequest demoEnv demoServer
        "\x7b\"jsonrpc\":\"2.0\",\"id\":7,\"method\":\"eth_blockNumber\"\x7d").proxied =
      some "\x7b\"jsonrpc\":\"2.0\",\"id\":7,\"method\":\"eth_blockNumber\"\x7d" ∧
    demoEnv.marshalRequest (specNormalized
        { JSONRPC := "2.0", ID := 7, Method := "eth_blockNumber", Params := Value.nil }) =
      .ok "\x7b\"jsonrpc\":\"2.0\",\"id\":7,\"method\":\"eth_blockNumber\",\"params\":[]\x7d" ∧
    (dispatchRequest demoEnv demoServer
        "\x7b\"jsonrpc\":\"2.0\",\"id\":7,\"method\":\"eth_blockNumber\"\x7d").proxied ≠
      (demoEnv.marshalRequest (specNormalized
        { JSONRPC := "2.0", ID := 7, Method := "eth_blockNumber", Params := Value.nil })).toOption := by
  decide

/-- C2: when decoding the body fails, `dispatchRequest` writes status 200 and
one envelope, the serialization of `jsonrpc "2.0"`, id `0`, no result, error
code `JSONRPCParserError`, message `"parse error"`, no data; no handler is
invoked, nothing is forwarded, and every other body that fails to decode
gets the same answer, whatever the registry. -/
theorem parse_error_envelope (env : Env) (server : Server) (body : String) (err bytes : String)
    (hdec : decodeRPCRequest env body = .error err)
    (hmar : env.marshalResponse
      { JSONRPC := "2.0", ID := 0, Result := Value.nil
        Error := some { Code := env.JSONRPCParserError, Message := "parse error",
                        Data := Value.nil } } = .ok bytes) :
    dispatchRequest env server body =
      { writer := [WriterCall.WriteHeader 200, WriterCall.Write bytes]
        invoked := [], proxied := none, panicked := false } ∧
    (∀ (server' : Server) (body' err' : String), decodeRPCRequest env body' = .error err' →
      dispatchRequest env server' body' = dispatchRequest env server body) := by
  have h : ∀ (server' : Server) (body' err' : String),
      decodeRPCRequest env body' = .error err' →
      dispatchRequest env server' body' =
        { writer := [WriterCall.WriteHeader 200, WriterCall.Write bytes]
          invoked := [], proxied := none, panicked := false } := by
    intro server' body' err' hdec'
    simp only [dispatchRequest, hdec', makeJSONRPCError, errorEnvelope, hmar]
  exact ⟨h server body err hdec, fun server' body' err' hdec' =>
    (h server' body' err' hdec').trans (h server body err hdec).symm⟩

/-- Witness of C2: the body `not-json`. -/
theorem parse_error_envelope_witness :
    dispatchRequest demoEnv demoServer "not-json" =
      { writer := [WriterCall.WriteHeader 200, WriterCall.Write
          "\x7b\"jsonrpc\":\"2.0\",\"id\":0,\"error\":\x7b\"code\":-32700,\"message\":\"parse error\"\x7d\x7d"]
        invoked := [], proxied := none, panicked := false } :=
  (parse_error_envelope demoEnv demoServer "not-json" "invalid character"
    "\x7b\"jsonrpc\":\"2.0\",\"id\":0,\"error\":\x7b\"code\":-32700,\"message\":\"parse error\"\x7d\x7d"
    rfl (by decide)).1

/-- C7, as the code has it: for a request that decodes and whose method is
registered, when the handler, called with the parameter sequence, succeeds,
`dispatchRequest` hands the encoder the envelope with `jsonrpc "2.0"`, the id
of the request, the value the handler returned as result and no error; when
that envelope serializes it is written with status 200, and when it does not
the client gets status 500 and the text `server internal error`.  After `Run`
a request for `blockPerSecond` is answered with the value the estimator holds
at that moment, whatever the arguments. -/
theorem handler_success_envelope (env : Env) (server : Server) (body : String)
    (request : RPCRequest) (method : handler) (args : List Value) (result : Value)
    (hdec : decodeRPCRequest env body = .ok request)
    (hreg : server.dispatch request.Method = some method)
    (hpar : (request.Params = Value.nil ∧ args = []) ∨ request.Params = Value.slice args)
    (hrun : method server.timeEstimator args = (result, none)) :
    dispatchRequest env server body =
      { writer :=
          (match env.marshalResponse
              { JSONRPC := "2.0", ID := request.ID, Result := result, Error := none } with
           | .error _ =>
             [WriterCall.WriteHeader 500, WriterCall.WriteHeader 500,
              WriterCall.Write "server internal error\n"]
           | .ok bytes => [WriterCall.WriteHeader 200, WriterCall.Write bytes])
        invoked := [(request.Method, args)], proxied := none, panicked := false } ∧
    (∀ (s : Server) (body' : String) (request' : RPCRequest) (args' : List Value),
      decodeRPCRequest env body' = .ok request' →
      request'.Method = "blockPerSecond" →
      ((request'.Params = Value.nil ∧ args' = []) ∨ request'.Params = Value.slice args') →
      dispatchRequest env (Server.Run s) body' =
        { writer :=
            (match env.marshalResponse
                { JSONRPC := "2.0", ID := request'.ID
                  Result := Value.float64 s.timeEstimator.blkPerSecond, Error := none } with
             | .error _ =>
               [WriterCall.WriteHeader 500, WriterCall.WriteHeader 500,
                WriterCall.Write "server internal error\n"]
             | .ok bytes => [WriterCall.WriteHeader 200, WriterCall.Write bytes])
          invoked := [("blockPerSecond", args')], proxied := none, panicked := false }) ∧
    (∀ (est : BlockTimeEstimator) (params : List Value),
      blockPerSecond est params = (Value.float64 est.blkPerSecond, none)) := by
  have general : ∀ (server : Server) (body : String) (request : RPCRequest) (method : handler)
      (args : List Value) (result : Value),
      decodeRPCRequest env body = .ok request →
      server.dispatch request.Method = some method →
      ((request.Params = Value.nil ∧ args = []) ∨ request.Params = Value.slice args) →
      method server.timeEstimator args = (result, none) →
      dispatchRequest env server body =
        { writer :=
            (match env.marshalResponse
                { JSONRPC := "2.0", ID := request.ID, Result := result, Error := none } with
             | .error _ =>
               [WriterCall.WriteHeader 500, WriterCall.WriteHeader 500,
                WriterCall.Write "server internal error\n"]
             | .ok bytes => [WriterCall.WriteHeader 200, WriterCall.Write bytes])
          invoked := [(request.Method, args)], proxied := none, panicked := false } := by
    intro server body request method args result hdec hreg hpar hrun
    have hw : makeJSONRPCResponse env request.ID result =
        (match env.marshalResponse
            { JSONRPC := "2.0", ID := request.ID, Result := result, Error := none } with
         | .error _ =>
           [WriterCall.WriteHeader 500, WriterCall.WriteHeader 500,
            WriterCall.Write "server internal error\n"]
         | .ok bytes => [WriterCall.WriteHeader 200, WriterCall.Write bytes]) := by
      simp only [makeJSONRPCResponse, resultEnvelope, httpError]
      cases env.marshalResponse
        { JSONRPC := "2.0", ID := request.ID, Result := result, Error := none } <;> rfl
    rcases hpar with ⟨hnil, rfl⟩ | hslice
    · simp only [dispatchRequest, hdec, hreg, hnil, hrun, hw]
    · simp only [dispatchRequest, hdec, hreg, hslice, hrun, hw]
  refine ⟨general server body request method args result hdec hreg hpar hrun, ?_, fun _ _ => rfl⟩
  intro s body' request' args' hdec' hname hpar'
  have hreg' : (Server.Run s).dispatch request'.Method = some blockPerSecond := by
    simp only [Server.Run, hname, if_true]
  have h := general (Server.Run s) body' request' blockPerSecond args'
    (Value.float64 s.timeEstimator.blkPerSecond) hdec' hreg' hpar' rfl
  rw [hname] at h
  exact h

/-- Witness of C7: `blockPerSecond` asked without `params` of a server whose
estimator still holds the default. -/
theorem handler_success_envelope_witness :
    (dispatchRequest demoEnv demoServer
        "\x7b\"jsonrpc\":\"2.0\",\"id\":3,\"method\":\"blockPerSecond\"\x7d").writer =
      [WriterCall.WriteHeader 200, WriterCall.Write
        "\x7b\"jsonrpc\":\"2.0\",\"id\":3,\"result\":0.1\x7d"] := by
  rw [(handler_success_envelope demoEnv demoServer
    "\x7b\"jsonrpc\":\"2.0\",\"id\":3,\"method\":\"blockPerSecond\"\x7d"
    { JSONRPC := "2.0", ID := 3, Method := "blockPerSecond", Params := Value.nil }
    blockPerSecond [] (Value.float64 demoServer.timeEstimator.blkPerSecond)
    rfl rfl (Or.inl ⟨rfl, rfl⟩) rfl).1]
  decide!

/-- Counterexample to C7 as stated: the estimator holds `+Inf`, the handler
`blockPerSecond` succeeds, and the client gets status 500 and a line of text,
no envelope. -/
theorem handler_success_without_envelope :
    stalledServer.timeEstimator.blkPerSecond = F64.inf false ∧
    (blockPerSecond stalledServer.timeEstimator []).2.isNone = true ∧
    (dispatchRequest demoEnv stalledServer
        "\x7b\"jsonrpc\":\"2.0\",\"id\":3,\"method\":\"blockPerSecond\"\x7d").writer =
      [WriterCall.WriteHeader 500, WriterCall.WriteHeader 500,
       WriterCall.Write "server internal error\n"] ∧
    (dispatchRequest demoEnv stalledServer
        "\x7b\"jsonrpc\":\"2.0\",\"id\":3,\"method\":\"blockPerSecond\"\x7d").panicked
      = false := by
  decide!

/-- C8 at the failing input: `blockPerSecond` called with an object as
`params` ends `dispatchRequest` in a panic, with nothing written to the
client, no handler invoked and nothing forwarded. -/
theorem dispatch_panics_on_object_params :
    (dispatchRequest demoEnv demoServer
      "\x7b\"jsonrpc\":\"2.0\",\"id\":4,\"method\":\"blockPerSecond\",\"params\":\x7b\"a\":1\x7d\x7d").panicked
      = true ∧
    (dispatchRequest demoEnv demoServer
      "\x7b\"jsonrpc\":\"2.0\",\"id\":4,\"method\":\"blockPerSecond\",\"params\":\x7b\"a\":1\x7d\x7d").writer
      = [] ∧
    (dispatchRequest demoEnv demoServer
      "\x7b\"jsonrpc\":\"2.0\",\"id\":4,\"method\":\"blockPerSecond\",\"params\":\x7b\"a\":1\x7d\x7d").proxied
      = none := by
  decide

/-- C9, as the code has it: the envelope `makeJSONRPCError` serializes has
its error populated and no result; the envelope `makeJSONRPCResponse`
serializes has no error, and has its result populated exactly when the value
it is given is not nil; so never both, and exactly one unless a nil result
is sent. -/
theorem envelope_fields (env : Env) (id : ℕ) :
    (∀ (code : ℤ) (message : String) (data : Value),
      (errorEnvelope id code message data).hasError = true ∧
      (errorEnvelope id code message data).hasResult = false ∧
      makeJSONRPCError env id code message data =
        (match env.marshalResponse (errorEnvelope id code message data) with
         | .error _ => WriterCall.WriteHeader 500 :: httpError "server internal error" 500
         | .ok jsonresponse => [WriterCall.WriteHeader 200, WriterCall.Write jsonresponse])) ∧
    (∀ data : Value,
      (resultEnvelope id data).hasError = false ∧
      ((resultEnvelope id data).hasResult = true ↔ data ≠ Value.nil) ∧
      makeJSONRPCResponse env id data =
        (match env.marshalResponse (resultEnvelope id data) with
         | .error _ => WriterCall.WriteHeader 500 :: httpError "server internal error" 500
         | .ok jsonresponse => [WriterCall.WriteHeader 200, WriterCall.Write jsonresponse])) := by
  refine ⟨fun code message data => ⟨rfl, rfl, rfl⟩, fun data => ⟨rfl, ?_, rfl⟩⟩
  cases data <;> simp [resultEnvelope, RPCResponse.hasResult]

/-- Counterexample to C9 as stated: for a nil result `makeJSONRPCResponse`
builds an envelope with neither field populated, and writes it. -/
theorem nil_result_envelope_is_empty :
    (resultEnvelope 7 Value.nil).hasResult = false ∧
    (resultEnvelope 7 Value.nil).hasError = false ∧
    makeJSONRPCResponse demoEnv 7 Value.nil =
      [WriterCall.WriteHeader 200, WriterCall.Write "\x7b\"jsonrpc\":\"2.0\",\"id\":7\x7d"] := by
  decide
end Insight
